import Mathlib

/-!
Verification of the tutorial-store data-access contract and deployment
routing of the reshma507/assignment repository (a MEAN-stack CRUD app:
Express REST backend over MongoDB, Angular client, nginx reverse proxy).

The backend's store and controller code is not part of the provided
source excerpt (only `backend/app/models/index.js` and the README with
the Docker/nginx/Jenkins configuration are); the store and HTTP layer
below are therefore modelled from the specification's operation
contracts.  The configuration module and the nginx routing are embedded
from the files that are present.
-/

/-- The sole entity: a tutorial record with an id assigned by the store,
a title, a description and a published flag.  Per the data model,
`published` is a boolean (never null) once stored; a description omitted
at creation is stored as the empty string. -/
structure Tutorial where
  id : Nat
  title : String
  description : String
  published : Bool
  deriving DecidableEq, Repr

/-- Modelled from the spec: the Tutorial Store's state — the stored
records in natural store order plus the next fresh id (ids are unique
and never reused). -/
structure Store where
  records : List Tutorial
  nextId : Nat
  deriving DecidableEq, Repr

/-- The well-formedness invariant the store maintains: ids are pairwise
distinct and every stored id is below the fresh-id counter. -/
def Store.Wf (s : Store) : Prop :=
  s.records.Pairwise (fun a b => a.id ≠ b.id) ∧ ∀ t ∈ s.records, t.id < s.nextId

/-- Modelled from the spec: `findAll()` returns every stored record. -/
def Store.findAll (s : Store) : List Tutorial :=
  s.records

/-- Modelled from the spec: `findById(id)` — exact-id lookup; `none`
plays the role of `NotFound`. -/
def Store.findById (s : Store) (i : Nat) : Option Tutorial :=
  s.records.find? (fun t => t.id == i)

/-- The fields a create call supplies: `description` and `published`
may be omitted. -/
structure CreateInput where
  title : String
  description : Option String
  published : Option Bool
  deriving DecidableEq, Repr

/-- Modelled from the spec: `create(title, description, published?)` —
assigns a new unique id, applies the `published` default of `false`
when omitted, persists the record. -/
def Store.create (s : Store) (inp : CreateInput) : Tutorial × Store :=
  let t : Tutorial :=
    { id := s.nextId
      title := inp.title
      description := inp.description.getD ""
      published := inp.published.getD false }
  (t, { records := s.records ++ [t], nextId := s.nextId + 1 })

/-- The fields an update call may supply; `none` means the field is not
listed in the update body. -/
structure UpdateFields where
  title : Option String
  description : Option String
  published : Option Bool
  deriving DecidableEq, Repr

/-- Applies only the supplied fields to a record; unspecified fields
are retained.  The id is immutable. -/
def applyFields (p : UpdateFields) (t : Tutorial) : Tutorial :=
  { t with
    title := p.title.getD t.title
    description := p.description.getD t.description
    published := p.published.getD t.published }

/-- Modelled from the spec: `update(id, partialFields)` — applies only
the supplied fields, fails with `NotFound` (here `none`) if the id is
absent. -/
def Store.update (s : Store) (i : Nat) (p : UpdateFields) :
    Option (Tutorial × Store) :=
  match s.findById i with
  | none => none
  | some t =>
    let t2 := applyFields p t
    some (t2, { s with records := s.records.map (fun u => if u.id == i then t2 else u) })

/-- Modelled from the spec: `deleteById(id)` — removes the record with
that id, `NotFound` (here `none`) if absent. -/
def Store.deleteById (s : Store) (i : Nat) : Option Store :=
  if s.records.any (fun t => t.id == i) then
    some { s with records := s.records.filter (fun t => t.id != i) }
  else
    none

/-- Modelled from the spec: `deleteAll()` — removes everything and
returns the count of records removed. -/
def Store.deleteAll (s : Store) : Nat × Store :=
  (s.records.length, { s with records := [] })

/-- ASCII lowercasing of a character sequence, as used by the
case-insensitive title search. -/
def lowerChars (l : List Char) : List Char :=
  l.map Char.toLower

/-- `strContainsCI s q` holds when `q` occurs in `s` as a contiguous
substring anywhere, compared case-insensitively. -/
def strContainsCI (s q : String) : Bool :=
  decide (lowerChars q.toList <:+: lowerChars s.toList)

/-- Modelled from the spec: `findByTitleContains(substring)` —
case-insensitive substring match against `title`; the empty substring
matches all. -/
def Store.findByTitleContains (s : Store) (q : String) : List Tutorial :=
  s.records.filter (fun t => strContainsCI t.title q)

/-- Modelled from the spec: `findAllPublished()` — the records with
`published = true`. -/
def Store.findAllPublished (s : Store) : List Tutorial :=
  s.records.filter (fun t => t.published)

/-- JSON response bodies the HTTP API layer produces: a single record,
a list, or an error object carrying a `message` field. -/
inductive Body where
  | tutorialJson (t : Tutorial)
  | listJson (ts : List Tutorial)
  | messageJson (msg : String)
  deriving DecidableEq, Repr

/-- An HTTP response: a status code and a JSON body. -/
structure Response where
  status : Nat
  body : Body
  deriving DecidableEq, Repr

/-- A `POST /api/tutorials` request body: every field may be absent. -/
structure CreateRequestBody where
  title : Option String
  description : Option String
  published : Option Bool
  deriving DecidableEq, Repr

/-- Modelled from the spec: the create endpoint — rejects a missing or
empty `title` with 400 Bad Request and creates nothing; otherwise
passes all fields through to the store unvalidated and answers
201 Created with the stored record. -/
def createHandler (s : Store) (b : CreateRequestBody) : Response × Store :=
  match b.title with
  | none => ({ status := 400, body := .messageJson "Content can not be empty!" }, s)
  | some ttl =>
    if ttl = "" then
      ({ status := 400, body := .messageJson "Content can not be empty!" }, s)
    else
      let r := s.create { title := ttl, description := b.description, published := b.published }
      ({ status := 201, body := .tutorialJson r.1 }, r.2)

/-- Modelled from the spec: the `GET /api/tutorials/:id` endpoint —
200 OK with the record, or 404 Not Found with a JSON error body
carrying a `message` field. -/
def findOneHandler (s : Store) (i : Nat) : Response :=
  match s.findById i with
  | some t => { status := 200, body := .tutorialJson t }
  | none => { status := 404, body := .messageJson ("Not found Tutorial with id " ++ toString i) }

/-- Modelled from the spec: the hardcoded fallback connection string of
`app/config/db.config.js` (the config file itself is not in the source
excerpt; the spec requires some hardcoded default). -/
def defaultDbUrl : String :=
  "mongodb://localhost:27017/dd_db"

/-- Modelled from the spec and the comment in
`backend/app/models/index.js` ("now reads MONGO_URL if set"):
`db.config.js` yields the `MONGO_URL` environment variable when set and
the hardcoded default otherwise. -/
def dbConfigUrl (mongoUrl : Option String) : String :=
  mongoUrl.getD defaultDbUrl

/-- The exported `db` object of `backend/app/models/index.js` (the part
the claims are about). -/
structure DbModule where
  url : String
  deriving DecidableEq, Repr

/-- Embeds `backend/app/models/index.js`: `db.url = dbConfig.url`,
evaluated once at module load from the environment. -/
def dbModule (env : Option String) : DbModule :=
  { url := dbConfigUrl env }

/-- The two upstreams of the nginx reverse proxy. -/
inductive Upstream where
  | backend
  | frontend
  deriving DecidableEq, Repr

/-- What the nginx server does with a request: forward it to an
upstream with a rewritten path, or answer a 301 redirect to another
location. -/
inductive ProxyAction where
  | forward (upstream : Upstream) (path : String)
  | redirect (location : String)
  deriving DecidableEq, Repr

/-- Embeds `nginx/default.conf` (from the repository README):
`location /api/ \x7b proxy_pass http://backend:8080/; \x7d` and
`location / \x7b proxy_pass http://frontend:80/; \x7d`, under nginx's
prefix-location semantics: the longest matching location prefix is
selected and, because each `proxy_pass` carries a URI part (`/`), the
matched prefix of the request path is replaced by that URI.  For a
slash-terminated prefix location served by `proxy_pass`, nginx also
auto-redirects the path that equals the prefix without its trailing
slash: a request to exactly `/api` is answered with a 301 redirect to
`/api/` and reaches no upstream.  (For `location /` that bare path is
the empty string, which no HTTP request path ever is.) -/
def nginxRoute (p : String) : ProxyAction :=
  if p = "/api" then
    .redirect "/api/"
  else if "/api/".toList.isPrefixOf p.toList then
    .forward .backend ("/" ++ p.drop 5)
  else
    .forward .frontend ("/" ++ p.drop 1)

/-- C2: a create call with `published` omitted stores `published = false`. -/
theorem create_published_defaults_false (s : Store) (title : String) (descr : Option String) :
    ((s.create { title := title, description := descr, published := none }).1.published = false)
      ∧ (s.create { title := title, description := descr, published := none }).1
          ∈ (s.create { title := title, description := descr, published := none }).2.records := by
  constructor
  · rfl
  · simp [Store.create]

/-- C4: the empty query returns the same records as findAll. -/
theorem findByTitleContains_empty_eq_findAll (s : Store) :
    s.findByTitleContains "" = s.findAll := by
  unfold Store.findByTitleContains Store.findAll
  rw [List.filter_eq_self]
  intro a _
  simp [strContainsCI, lowerChars]

/-- C5: membership characterisation of the title search. -/
theorem findByTitleContains_members (s : Store) (q : String) (t : Tutorial) :
    (t ∈ s.findByTitleContains q ↔ t ∈ s.records ∧ lowerChars q.toList <:+: lowerChars t.title.toList)
      ∧ ({ id := 1, title := "Angular", description := "", published := false } : Tutorial)
          ∈ Store.findByTitleContains ⟨[⟨1, "Angular", "", false⟩], 2⟩ "ang" := by
  constructor
  · simp [Store.findByTitleContains, List.mem_filter, strContainsCI]
  · decide

/-- C9: db.url equals MONGO_URL when set, the hardcoded default otherwise. -/
theorem dbModule_url_spec (u : String) :
    (dbModule (some u)).url = u ∧ (dbModule none).url = defaultDbUrl :=
  ⟨rfl, rfl⟩

theorem append_drop_api (rest : String) :
    "/" ++ ("/api/" ++ rest).drop 5 = "/" ++ rest := by
  apply String.ext
  rw [String.data_append, String.data_drop, String.data_append, String.data_append]
  have h5 : ("/api/".data).length = 5 := rfl
  rw [← h5, List.drop_left]

theorem api_route_matches (rest : String) :
    "/api/".toList.isPrefixOf ("/api/" ++ rest).toList = true := by
  simp only [String.toList, List.isPrefixOf_iff_prefix, String.data_append]
  exact List.prefix_append _ _

theorem api_slash_ne_bare (rest : String) : ("/api/" ++ rest) ≠ "/api" := by
  intro h
  have hd := congrArg (fun s => s.data.length) h
  simp only [String.data_append, List.length_append] at hd
  have h5 : ("/api/".data).length = 5 := rfl
  have h4 : ("/api".data).length = 4 := rfl
  rw [h5, h4] at hd
  omega

/-- C10 counterexample: the bare path `/api` starts with `/` and not
with `/api/`, yet the embedded config answers it with a 301 redirect to
`/api/` instead of forwarding it to the frontend unchanged. -/
theorem nginxRoute_bare_api_redirect :
    ("/").toList.isPrefixOf ("/api").toList = true
      ∧ ("/api/").toList.isPrefixOf ("/api").toList = false
      ∧ nginxRoute "/api" = ProxyAction.redirect "/api/"
      ∧ nginxRoute "/api" ≠ ProxyAction.forward Upstream.frontend "/api" := by
  decide

/-- C10 (amended): a path beginning with `/api/` is forwarded to the
backend with that prefix replaced by `/`; the bare path `/api` is
answered with a 301 redirect to `/api/`; every other path is forwarded
to the frontend unchanged. -/
theorem nginxRoute_spec (rest p : String) :
    (nginxRoute ("/api/" ++ rest) = ProxyAction.forward Upstream.backend ("/" ++ rest))
      ∧ (nginxRoute "/api/tutorials" = ProxyAction.forward Upstream.backend "/tutorials")
      ∧ (nginxRoute "/api" = ProxyAction.redirect "/api/")
      ∧ (p ≠ "/api" → ("/").toList.isPrefixOf p.toList = true →
          ("/api/").toList.isPrefixOf p.toList = false →
          nginxRoute p = ProxyAction.forward Upstream.frontend p) := by
  have hmain : ∀ r : String,
      nginxRoute ("/api/" ++ r) = ProxyAction.forward Upstream.backend ("/" ++ r) := by
    intro r
    unfold nginxRoute
    rw [if_neg (api_slash_ne_bare r), if_pos (api_route_matches r), append_drop_api]
  refine ⟨hmain rest, ?_, rfl, ?_⟩
  · have h := hmain "tutorials"
    have e1 : "/api/" ++ "tutorials" = "/api/tutorials" := rfl
    have e2 : "/" ++ "tutorials" = "/tutorials" := rfl
    rw [e1, e2] at h
    exact h
  · intro h0 h1 h2
    have hpath : "/" ++ p.drop 1 = p := by
      apply String.ext
      rw [String.data_append, String.data_drop]
      simp only [String.toList, List.isPrefixOf_iff_prefix] at h1
      obtain ⟨tl, htl⟩ := h1
      rw [← htl]
      rfl
    unfold nginxRoute
    rw [if_neg h0, if_neg ?_, hpath]
    intro hc
    rw [h2] at hc
    exact Bool.false_ne_true hc

theorem find?_replace_eq (i : Nat) (t2 : Tutorial) (ht2 : (t2.id == i) = true) :
    ∀ l : List Tutorial, (l.find? (fun u => u.id == i)).isSome = true →
      (l.map (fun u => if u.id == i then t2 else u)).find? (fun u => u.id == i) = some t2 := by
  intro l
  induction l with
  | nil => simp
  | cons a tl ih =>
    intro hsome
    by_cases hh : (a.id == i) = true
    · simp only [List.map_cons]
      rw [if_pos hh]
      exact List.find?_cons_of_pos _ ht2
    · simp only [List.map_cons]
      rw [if_neg hh, @List.find?_cons_of_neg _ (fun u => u.id == i) a _ hh]
      apply ih
      rw [@List.find?_cons_of_neg _ (fun u => u.id == i) a _ hh] at hsome
      exact hsome

/-- C1: findById returns the fields last written. -/
theorem findById_last_written (s : Store) (inp : CreateInput) (i : Nat) (p : UpdateFields)
    (hs : s.Wf) :
    ((s.create inp).2.findById (s.create inp).1.id = some (s.create inp).1)
      ∧ (∀ t2 s2, s.update i p = some (t2, s2) → s2.findById i = some t2) := by
  constructor
  · have hnone : s.records.find? (fun t => t.id == s.nextId) = none := by
      rw [List.find?_eq_none]
      intro x hx
      simp only [beq_iff_eq]
      exact Nat.ne_of_lt (hs.2 x hx)
    have hcr : (s.create inp).2.records = s.records ++ [(s.create inp).1] := rfl
    have hid : (s.create inp).1.id = s.nextId := rfl
    unfold Store.findById
    rw [hcr, hid, List.find?_append, hnone]
    simp [hid]
  · intro t2 s2 hup
    unfold Store.update at hup
    cases hfind : s.findById i with
    | none => rw [hfind] at hup; exact absurd hup (by simp)
    | some t =>
      rw [hfind] at hup
      simp only [Option.some.injEq, Prod.mk.injEq] at hup
      obtain ⟨ht2, hs2⟩ := hup
      subst ht2 hs2
      unfold Store.findById at hfind ⊢
      have hpt := List.find?_some hfind
      apply find?_replace_eq
      · exact hpt
      · rw [hfind]
        rfl

/-- C3: update applies only supplied fields and fails on absent ids. -/
theorem update_frame (s : Store) (i : Nat) (p : UpdateFields) :
    (s.findById i = none → s.update i p = none)
      ∧ (∀ t2 s2, s.update i p = some (t2, s2) →
          ∃ t, s.findById i = some t
            ∧ t2.id = t.id
            ∧ (p.title = none → t2.title = t.title)
            ∧ (p.description = none → t2.description = t.description)
            ∧ (p.published = none → t2.published = t.published)
            ∧ ∀ u ∈ s.records, u.id ≠ i → u ∈ s2.records) := by
  constructor
  · intro hnone
    unfold Store.update
    rw [hnone]
  · intro t2 s2 hup
    unfold Store.update at hup
    cases hfind : s.findById i with
    | none => rw [hfind] at hup; exact absurd hup (by simp)
    | some t =>
      rw [hfind] at hup
      simp only [Option.some.injEq, Prod.mk.injEq] at hup
      obtain ⟨ht2, hs2⟩ := hup
      subst ht2 hs2
      refine ⟨t, rfl, rfl, ?_, ?_, ?_, ?_⟩
      · intro hn; simp [applyFields, hn]
      · intro hn; simp [applyFields, hn]
      · intro hn; simp [applyFields, hn]
      · intro u hu hne
        simp only [List.mem_map]
        refine ⟨u, hu, ?_⟩
        have hf : (u.id == i) = false := by simp [hne]
        simp [hf]

/-- C6: delete then lookup misses; delete of a missing id fails. -/
theorem deleteById_spec (s : Store) (i : Nat) :
    (s.deleteById i = none ↔ s.findById i = none)
      ∧ (∀ s2, s.deleteById i = some s2 → s2.findById i = none) := by
  have hkey : (s.records.any (fun t => t.id == i)) = false ↔ s.findById i = none := by
    unfold Store.findById
    rw [List.any_eq_false, List.find?_eq_none]
  constructor
  · by_cases hb : (s.records.any (fun t => t.id == i)) = true
    · constructor
      · intro hdel
        unfold Store.deleteById at hdel
        rw [if_pos hb] at hdel
        exact absurd hdel (by simp)
      · intro hfind
        have := hkey.mpr hfind
        rw [hb] at this
        exact absurd this (by simp)
    · have hb2 : (s.records.any (fun t => t.id == i)) = false := by
        cases h : s.records.any (fun t => t.id == i)
        · rfl
        · exact absurd h hb
      constructor
      · intro _; exact hkey.mp hb2
      · intro _; unfold Store.deleteById; rw [if_neg hb]
  · intro s2 hdel
    unfold Store.deleteById at hdel
    by_cases hb : (s.records.any (fun t => t.id == i)) = true
    · rw [if_pos hb] at hdel
      injection hdel with h
      subst h
      unfold Store.findById
      rw [List.find?_eq_none]
      intro x hx
      simp only [List.mem_filter] at hx
      have h2 := hx.2
      simp only [bne_iff_ne] at h2
      simp only [beq_iff_eq]
      exact h2
    · rw [if_neg hb] at hdel
      exact absurd hdel (by simp)

/-- C7: missing id gives 404 with a JSON message body. -/
theorem findOne_missing_404 (s : Store) (i : Nat) (h : s.findById i = none) :
    (findOneHandler s i).status = 404
      ∧ ∃ m, (findOneHandler s i).body = Body.messageJson m := by
  unfold findOneHandler
  rw [h]
  exact ⟨rfl, _, rfl⟩

/-- C8: create rejects missing or empty titles with 400 and stores nothing; otherwise 201. -/
theorem create_validation (s : Store) (b : CreateRequestBody) :
    ((b.title = none ∨ b.title = some "") →
        (createHandler s b).1.status = 400 ∧ (createHandler s b).2 = s)
      ∧ (∀ ttl, b.title = some ttl → ttl ≠ "" →
          (createHandler s b).1.status = 201
            ∧ (createHandler s b).2.records
                = s.records ++ [(s.create { title := ttl, description := b.description, published := b.published }).1]) := by
  constructor
  · intro hbad
    cases hbad with
    | inl h => unfold createHandler; rw [h]; exact ⟨rfl, rfl⟩
    | inr h =>
      unfold createHandler
      rw [h]
      simp
  · intro ttl ht hne
    unfold createHandler
    rw [ht]
    simp [hne]
    rfl

/-- Witness for C1 at a concrete one-record store. -/
theorem findById_last_written_witness :
    ((Store.create ⟨[⟨0, "T0", "", false⟩], 1⟩ ⟨"T1", none, none⟩).2.findById
        (Store.create ⟨[⟨0, "T0", "", false⟩], 1⟩ ⟨"T1", none, none⟩).1.id
      = some (Store.create ⟨[⟨0, "T0", "", false⟩], 1⟩ ⟨"T1", none, none⟩).1)
      ∧ (∀ t2 s2, Store.update ⟨[⟨0, "T0", "", false⟩], 1⟩ 0 ⟨none, none, some true⟩ = some (t2, s2) →
          Store.findById s2 0 = some t2) :=
  findById_last_written ⟨[⟨0, "T0", "", false⟩], 1⟩ ⟨"T1", none, none⟩ 0 ⟨none, none, some true⟩
    ⟨by simp, by simp⟩

/-- Witness for C3: the concrete consequence of a published-only update. -/
theorem update_frame_witness :
    ∃ t, Store.findById ⟨[⟨1, "T1", "d", false⟩], 2⟩ 1 = some t
      ∧ (Tutorial.mk 1 "T1" "d" true).id = t.id
      ∧ ((UpdateFields.mk none none (some true)).title = none → (Tutorial.mk 1 "T1" "d" true).title = t.title)
      ∧ ((UpdateFields.mk none none (some true)).description = none → (Tutorial.mk 1 "T1" "d" true).description = t.description)
      ∧ ((UpdateFields.mk none none (some true)).published = none → (Tutorial.mk 1 "T1" "d" true).published = t.published)
      ∧ ∀ u ∈ (Store.mk [Tutorial.mk 1 "T1" "d" false] 2).records, u.id ≠ 1 →
          u ∈ (Store.mk [Tutorial.mk 1 "T1" "d" true] 2).records :=
  (update_frame ⟨[⟨1, "T1", "d", false⟩], 2⟩ 1 ⟨none, none, some true⟩).2
    (Tutorial.mk 1 "T1" "d" true) ⟨[Tutorial.mk 1 "T1" "d" true], 2⟩ (by decide)

/-- Witness for C6: deleting the only record empties the lookup. -/
theorem deleteById_spec_witness :
    Store.findById (Store.mk [] 2) 1 = none :=
  (deleteById_spec ⟨[⟨1, "T1", "d", false⟩], 2⟩ 1).2 (Store.mk [] 2) (by decide)

/-- Witness for C7 at the empty store. -/
theorem findOne_missing_404_witness :
    (findOneHandler ⟨[], 0⟩ 5).status = 404
      ∧ ∃ m, (findOneHandler ⟨[], 0⟩ 5).body = Body.messageJson m :=
  findOne_missing_404 ⟨[], 0⟩ 5 rfl

/-- Witness for C8: a create request with no title is rejected and leaves the store unchanged. -/
theorem create_validation_witness :
    (createHandler ⟨[], 0⟩ ⟨none, some "d", some true⟩).1.status = 400
      ∧ (createHandler ⟨[], 0⟩ ⟨none, some "d", some true⟩).2 = ⟨[], 0⟩ :=
  (create_validation ⟨[], 0⟩ ⟨none, some "d", some true⟩).1 (Or.inl rfl)

/-- Witness for C10: a non-api path reaches the frontend unchanged. -/
theorem nginxRoute_spec_witness :
    nginxRoute "/tutorials-page" = ProxyAction.forward Upstream.frontend "/tutorials-page" :=
  (nginxRoute_spec "x" "/tutorials-page").2.2.2 (by decide) (by decide) (by decide)
